import Mathlib

/-!
Shallow embedding of the nbcon console-ownership protocol from
`kernel/printk/nbcon.c`.

The console state (`struct nbcon_state`) is a single atomic word; all
mutation in the source goes through `nbcon_state_try_cmpxchg` retry loops.
Each acquire/release/can-proceed operation is embedded here as the pure
transition it performs on the state it read: the cmpxchg loops are evaluated
in the interference-free schedule (a cmpxchg whose expected value is the
value just read succeeds), except where a claim is explicitly about a lost
CAS race, in which case the CAS outcome or the concurrently observed state
is an explicit parameter of the embedding.

Machine integers: the state fields are small bitfields compared as integers
in C; priorities are a 4-value enum compared via `toNat`, the cpu id a `Nat`.
Sequence numbers (u64, with `__u64seq_to_ulseq` the identity on 64-bit
systems) are `Nat`.
-/

namespace Nbcon

/-- `enum nbcon_prio`: NBCON_PRIO_NONE < NORMAL < EMERGENCY < PANIC. -/
inductive NbconPrio where
  | none
  | normal
  | emergency
  | panic
deriving DecidableEq

/-- The integer value of a priority, as the C enum compares them. -/
def NbconPrio.toNat : NbconPrio → Nat
  | .none => 0
  | .normal => 1
  | .emergency => 2
  | .panic => 3

/-- `struct nbcon_state`: the per-console atomic word. The C bitfield
`unsafe` is called `unsafe_bit` here. -/
structure NbconState where
  prio : NbconPrio
  req_prio : NbconPrio
  unsafe_bit : Bool
  unsafe_takeover : Bool
  cpu : Nat
deriving DecidableEq

/-- `struct nbcon_context`: the per-call acquire context. `cpu` is the
caller's `smp_processor_id()`. -/
structure NbconContext where
  prio : NbconPrio
  allow_unsafe_takeover : Bool
  spinwait_max_us : Nat
  cpu : Nat
  seq : Nat
deriving DecidableEq

/-- The error codes the acquire path uses: -EPERM, -EBUSY, -EAGAIN, -ENOENT. -/
inductive AcqErr where
  | eperm
  | ebusy
  | eagain
  | enoent
deriving DecidableEq

/-- `nbcon_context_try_acquire_direct`. `panic_other` is
`other_cpu_in_panic()`. Returns the error (or `none` on success) together
with the console state after the call; on failure the state is returned
unchanged, exactly as the C function leaves the atomic word untouched on
its early returns. -/
def nbcon_context_try_acquire_direct (panic_other : Bool) (ctxt : NbconContext)
    (cur : NbconState) : Option AcqErr × NbconState :=
  if panic_other then (some AcqErr.eperm, cur)
  else if ctxt.prio.toNat ≤ cur.prio.toNat ∨ ctxt.prio.toNat ≤ cur.req_prio.toNat then
    (some AcqErr.eperm, cur)
  else if cur.unsafe_bit then (some AcqErr.ebusy, cur)
  else
    (none,
     { prio := ctxt.prio
       req_prio := NbconPrio.none
       unsafe_bit := cur.unsafe_takeover
       unsafe_takeover := cur.unsafe_takeover
       cpu := ctxt.cpu })

/-- `nbcon_waiter_matches`. -/
def nbcon_waiter_matches (cur : NbconState) (expected_prio : NbconPrio) : Bool :=
  cur.req_prio == expected_prio

/-- `nbcon_context_try_acquire_requested`. In the interference-free schedule
the final cmpxchg succeeds, so the -EPERM-after-lost-cmpxchg arm of the C
function is not taken. -/
def nbcon_context_try_acquire_requested (panic_other : Bool) (ctxt : NbconContext)
    (cur : NbconState) : Option AcqErr × NbconState :=
  if panic_other then (some AcqErr.eperm, cur)
  else if !nbcon_waiter_matches cur ctxt.prio then (some AcqErr.eperm, cur)
  else if cur.prio ≠ NbconPrio.none then (some AcqErr.ebusy, cur)
  else
    (none,
     { prio := ctxt.prio
       req_prio := NbconPrio.none
       unsafe_bit := cur.unsafe_takeover
       unsafe_takeover := cur.unsafe_takeover
       cpu := ctxt.cpu })

/-- `nbcon_context_try_acquire_handover`. `post_cas_ok` is the outcome of the
cmpxchg that posts `req_prio`: false means the state changed concurrently
between the read and the CAS (the -EAGAIN case). After a successful post the
spin-wait loop and the request removal are evaluated in the
interference-free schedule: every re-read returns the posted state, whose
`try_acquire_requested` outcome is therefore the same on every iteration,
and the removal cmpxchg succeeds. -/
def nbcon_context_try_acquire_handover (panic_other : Bool) (ctxt : NbconContext)
    (cur : NbconState) (post_cas_ok : Bool) : Option AcqErr × NbconState :=
  if cur.cpu = ctxt.cpu then (some AcqErr.ebusy, cur)
  else if cur.unsafe_takeover then (some AcqErr.ebusy, cur)
  else if ctxt.spinwait_max_us = 0 then (some AcqErr.ebusy, cur)
  else if !post_cas_ok then (some AcqErr.eagain, cur)
  else
    let posted : NbconState := { cur with req_prio := ctxt.prio }
    match nbcon_context_try_acquire_requested panic_other ctxt posted with
    | (none, s) => (none, s)
    | (some e, _) =>
        if nbcon_waiter_matches posted ctxt.prio then
          (some e, { posted with req_prio := NbconPrio.none })
        else (some AcqErr.eperm, posted)

/-- `nbcon_context_try_acquire_hostile`. -/
def nbcon_context_try_acquire_hostile (ctxt : NbconContext)
    (cur : NbconState) : Option AcqErr × NbconState :=
  if !ctxt.allow_unsafe_takeover then (some AcqErr.eperm, cur)
  else if ctxt.prio ≠ NbconPrio.panic then (some AcqErr.eperm, cur)
  else
    (none,
     { cur with
       cpu := ctxt.cpu
       prio := ctxt.prio
       unsafe_bit := cur.unsafe_bit || cur.unsafe_takeover
       unsafe_takeover := cur.unsafe_takeover || cur.unsafe_bit })

/-- `nbcon_owner_matches`. -/
def nbcon_owner_matches (cur : NbconState) (expected_cpu : Nat)
    (expected_prio : NbconPrio) : Bool :=
  if cur.prio ≠ expected_prio then false
  else if cur.cpu ≠ expected_cpu then false
  else true

/-- `nbcon_context_release`: clears `prio` only when this context still
matches `(prio, cpu)`, keeping `unsafe |= unsafe_takeover`; otherwise a
no-op on the state. -/
def nbcon_context_release (ctxt : NbconContext) (cur : NbconState) : NbconState :=
  if !nbcon_owner_matches cur ctxt.cpu ctxt.prio then cur
  else
    { cur with
      prio := NbconPrio.none
      unsafe_bit := cur.unsafe_bit || cur.unsafe_takeover }

/-- `nbcon_context_can_proceed`: the boolean result together with the
console state after the call (the call releases ownership in its
safe-with-waiter arm). -/
def nbcon_context_can_proceed (ctxt : NbconContext) (cur : NbconState) :
    Bool × NbconState :=
  if !nbcon_owner_matches cur ctxt.cpu ctxt.prio then (false, cur)
  else if cur.req_prio = NbconPrio.none then (true, cur)
  else if cur.unsafe_bit then (true, cur)
  else (false, nbcon_context_release ctxt cur)

/-- `__nbcon_context_update_unsafe` (`nbcon_context_enter_unsafe` is the
call with `true`, `nbcon_context_exit_unsafe` the call with `false`). The
cmpxchg loop is evaluated in the interference-free schedule. -/
def nbcon_context_update_unsafe_bit (ctxt : NbconContext) (cur : NbconState)
    (unsafe_new : Bool) : Bool × NbconState :=
  if !unsafe_new && cur.unsafe_takeover then
    nbcon_context_can_proceed ctxt cur
  else
    match nbcon_context_can_proceed ctxt cur with
    | (false, s) => (false, s)
    | (true, _) =>
        nbcon_context_can_proceed ctxt { cur with unsafe_bit := unsafe_new }

/-- `nbcon_context_try_acquire`: direct, then handover, then hostile. In the
interference-free schedule the request-posting cmpxchg succeeds, so the
-EAGAIN `goto try_again` retry is not taken and `post_cas_ok` is `true`.
`panic_cpu` is the CPU recorded in the global `panic_cpu` atomic (if any);
on success the panic-only buffer pool is selected when the caller is the
panic CPU, and `ctxt->seq` is read from the console (`con_seq`). -/
structure AcquireOutcome where
  ok : Bool
  st : NbconState
  ctxt : NbconContext
  panic_buf : Bool
deriving DecidableEq

/-- The acquire cascade of `nbcon_context_try_acquire` (direct, then
handover on -EBUSY, then hostile on -EBUSY), before the success bookkeeping. -/
def nbcon_try_acquire_step (panic_other : Bool) (ctxt : NbconContext)
    (cur : NbconState) : Option AcqErr × NbconState :=
  match nbcon_context_try_acquire_direct panic_other ctxt cur with
  | (some AcqErr.ebusy, s) =>
      match nbcon_context_try_acquire_handover panic_other ctxt s true with
      | (some AcqErr.ebusy, s2) => nbcon_context_try_acquire_hostile ctxt s2
      | r => r
  | r => r

def nbcon_context_try_acquire (panic_other : Bool) (panic_cpu : Option Nat)
    (ctxt : NbconContext) (cur : NbconState) (con_seq : Nat) : AcquireOutcome :=
  match nbcon_try_acquire_step panic_other ctxt cur with
  | (some _, s) => { ok := false, st := s, ctxt := ctxt, panic_buf := false }
  | (none, s) =>
      { ok := true
        st := s
        ctxt := { ctxt with seq := con_seq }
        panic_buf := panic_cpu == some ctxt.cpu }

/-! ## SequenceTracker -/

/-- `nbcon_seq_force`: clamp the forced value to the oldest still-retained
record, `max seq (prb_first_valid_seq prb)`. -/
def nbcon_seq_force (first_valid_seq : Nat) (seq : Nat) : Nat :=
  max seq first_valid_seq

/-- `nbcon_seq_try_update`: cmpxchg `con->nbcon_seq` from `ctxt->seq` to
`new_seq`; on success both become `new_seq`, on failure the stored value is
unchanged and `ctxt->seq` is resynchronized to it. Returns
`(new con->nbcon_seq, new ctxt->seq)`. -/
def nbcon_seq_try_update (con_seq : Nat) (ctxt_seq : Nat) (new_seq : Nat) :
    Nat × Nat :=
  if con_seq = ctxt_seq then (new_seq, new_seq) else (con_seq, con_seq)

/-! ## RecordEmitter

The ring buffer and the text-formatting layer are external collaborators
(spec section 1): `printk_get_next_message` is a parameter
`getMsg : Nat → Option PrintkMessage` (`none` = no record at or after the
queried sequence, i.e. no backlog), and the two prepend operations record
their effect as flags on the message (the byte-level splicing is opaque
formatting; it does not change the record's sequence number). -/

/-- `struct printk_message`: the fields of the rendered record the emitter
inspects, plus the two ghost flags recording the opaque prepend effects. -/
structure PrintkMessage where
  seq : Nat
  dropped : Nat
  outbuf_len : Nat
  dropped_notice : Bool
  replayed : Bool
deriving DecidableEq

/-- `console_prepend_dropped`: splice a "N messages dropped" notice into the
message text (opaque; recorded as a flag). -/
def console_prepend_dropped (pmsg : PrintkMessage) (_count : Nat) : PrintkMessage :=
  { pmsg with dropped_notice := true }

/-- `console_prepend_replay`: splice a replay notice into the message text
(opaque; recorded as a flag). -/
def console_prepend_replay (pmsg : PrintkMessage) : PrintkMessage :=
  { pmsg with replayed := true }

/-- The per-console shared words the emitter touches: `con->nbcon_state`,
`con->nbcon_seq`, `con->nbcon_prev_seq` and `con->dropped`. -/
structure ConMachine where
  st : NbconState
  nbcon_seq : Nat
  nbcon_prev_seq : Nat
  dropped : Nat
deriving DecidableEq

/-- Which driver write callbacks the console registered. -/
structure ConCallbacks where
  has_write_atomic : Bool
  has_write_thread : Bool
deriving DecidableEq

/-- The result of `nbcon_emit_next_record`: the boolean return (still the
owner), the machine state, `ctxt->seq` and `ctxt->backlog` on return, and
the prepared message once one was built (a ghost observable; the C code
keeps it in `pmsg`). -/
structure EmitResult where
  own : Bool
  m : ConMachine
  ctxt_seq : Nat
  backlog : Bool
  msg : Option PrintkMessage
deriving DecidableEq

/-- The tail of `nbcon_emit_next_record` from the `update_con` label:
re-enter the unsafe region, write back `con->dropped` when it changed,
advance `con->nbcon_seq` to `pmsg.seq + 1` via `nbcon_seq_try_update`, and
exit the unsafe region, whose result is the function's result. -/
def nbcon_emit_update_con (ctxt : NbconContext) (m : ConMachine)
    (pmsg : PrintkMessage) (con_dropped dropped : Nat) : EmitResult :=
  match nbcon_context_update_unsafe_bit ctxt m.st true with
  | (false, s) =>
      { own := false, m := { m with st := s }, ctxt_seq := ctxt.seq
        backlog := true, msg := some pmsg }
  | (true, s) =>
      let m1 : ConMachine :=
        { m with
          st := s
          dropped := if dropped ≠ con_dropped then dropped else m.dropped }
      let seqs := nbcon_seq_try_update m1.nbcon_seq ctxt.seq (pmsg.seq + 1)
      let m2 : ConMachine := { m1 with nbcon_seq := seqs.1 }
      match nbcon_context_update_unsafe_bit ctxt m2.st false with
      | (ok2, s2) =>
          { own := ok2, m := { m2 with st := s2 }, ctxt_seq := seqs.2
            backlog := true, msg := some pmsg }

/-- The part of `nbcon_emit_next_record` after the replay bookkeeping: exit
the unsafe region, hand the buffer to the driver callback unless the record
was fully consumed by bookkeeping (`outbuf_len = 0`), and fall through to
`update_con`. `write_keeps_outbuf` is the driver callback's observable
behaviour: false models the callback returning a null `outbuf` (it lost and
reacquired ownership independently), which the emitter treats as an
ownership loss. A console without the selected callback (the WARN branch for
legacy consoles) is likewise treated as an ownership loss. -/
def nbcon_emit_finish (ctxt : NbconContext) (m : ConMachine)
    (pmsg : PrintkMessage) (con_dropped dropped : Nat) (use_atomic : Bool)
    (cb : ConCallbacks) (write_keeps_outbuf : Bool) : EmitResult :=
  match nbcon_context_update_unsafe_bit ctxt m.st false with
  | (false, s) =>
      { own := false, m := { m with st := s }, ctxt_seq := ctxt.seq
        backlog := true, msg := some pmsg }
  | (true, s) =>
      let m1 : ConMachine := { m with st := s }
      if pmsg.outbuf_len = 0 then
        nbcon_emit_update_con ctxt m1 pmsg con_dropped dropped
      else
        if (use_atomic && cb.has_write_atomic) || (!use_atomic && cb.has_write_thread) then
          if !write_keeps_outbuf then
            { own := false, m := { m1 with st := nbcon_context_release ctxt m1.st }
              ctxt_seq := ctxt.seq, backlog := true, msg := some pmsg }
          else
            nbcon_emit_update_con ctxt m1 pmsg con_dropped 0
        else
          { own := false, m := { m1 with st := nbcon_context_release ctxt m1.st }
            ctxt_seq := ctxt.seq, backlog := true, msg := some pmsg }

/-- `nbcon_emit_next_record`. `obs_recheck` is the console state returned by
the fresh `nbcon_state_read` performed just before the `nbcon_prev_seq`
cmpxchg (`none` = no concurrent change: the read returns the threaded
state); every other read is evaluated in the interference-free schedule.
The `nbcon_prev_seq` cmpxchg's expected value is the value read into
`ulseq`, so in this embedding it succeeds; the C code ignores its result. -/
def nbcon_emit_next_record (ctxt : NbconContext) (m : ConMachine)
    (is_extended : Bool) (getMsg : Nat → Option PrintkMessage)
    (obs_recheck : Option NbconState) (use_atomic : Bool) (cb : ConCallbacks)
    (write_keeps_outbuf : Bool) : EmitResult :=
  match nbcon_context_update_unsafe_bit ctxt m.st true with
  | (false, s1) =>
      { own := false, m := { m with st := s1 }, ctxt_seq := ctxt.seq
        backlog := false, msg := none }
  | (true, s1) =>
      let m1 : ConMachine := { m with st := s1 }
      match getMsg ctxt.seq with
      | none =>
          match nbcon_context_update_unsafe_bit ctxt m1.st false with
          | (ok2, s2) =>
              { own := ok2, m := { m1 with st := s2 }, ctxt_seq := ctxt.seq
                backlog := false, msg := none }
      | some pmsg0 =>
          let con_dropped := m1.dropped
          let dropped := con_dropped + pmsg0.dropped
          let pmsg1 :=
            if dropped != 0 && !is_extended then
              console_prepend_dropped pmsg0 dropped
            else pmsg0
          let ulseq := m1.nbcon_prev_seq
          if ulseq = pmsg1.seq then
            nbcon_emit_finish ctxt m1 (console_prepend_replay pmsg1)
              con_dropped dropped use_atomic cb write_keeps_outbuf
          else
            let s_obs := obs_recheck.getD m1.st
            match nbcon_context_can_proceed ctxt s_obs with
            | (false, s2) =>
                { own := false, m := { m1 with st := s2 }, ctxt_seq := ctxt.seq
                  backlog := true, msg := some pmsg1 }
            | (true, _) =>
                let m2 : ConMachine :=
                  { m1 with st := s_obs, nbcon_prev_seq := pmsg1.seq }
                nbcon_emit_finish ctxt m2 pmsg1 con_dropped dropped
                  use_atomic cb write_keeps_outbuf

/-! ## FlushOrchestrator -/

/-- The `while (nbcon_seq_read(con) < stop_seq)` loop of
`__nbcon_atomic_flush_pending_con`, with an explicit iteration bound
`fuel` (the loop body is re-entered at most `fuel` times; the claims below
only concern runs that exit within the bound). The per-iteration
environment (`obs`, `writes`) is indexed by the remaining fuel. Returns the
error, the machine state, the context and whether this context still owns
the console (and so must release on exit). -/
def nbcon_atomic_flush_loop (is_extended : Bool)
    (getMsg : Nat → Option PrintkMessage) (obs : Nat → Option NbconState)
    (writes : Nat → Bool) (cb : ConCallbacks) (stop_seq : Nat) :
    Nat → ConMachine → NbconContext → Option AcqErr × ConMachine × NbconContext × Bool
  | 0, m, c => (none, m, c, true)
  | Nat.succ fuel, m, c =>
      if m.nbcon_seq < stop_seq then
        let r := nbcon_emit_next_record c m is_extended getMsg (obs fuel) true cb
          (writes fuel)
        if r.own = false then (some AcqErr.eagain, r.m, c, false)
        else if r.backlog = false then
          (if r.m.nbcon_seq < stop_seq then some AcqErr.enoent else none,
           r.m, { c with seq := r.ctxt_seq }, true)
        else
          nbcon_atomic_flush_loop is_extended getMsg obs writes cb stop_seq fuel
            r.m { c with seq := r.ctxt_seq }
      else (none, m, c, true)

/-- `__nbcon_atomic_flush_pending_con`: build the context
(`spinwait_max_us = 2000`, `prio = nbcon_get_default_prio()` passed as
`prio`, `allow_unsafe_takeover` as given), acquire, run the flush loop, and
release on exit unless ownership was already lost (-EAGAIN returns without
touching the state, as the context is no longer valid). -/
def atomic_flush_pending_con (panic_other : Bool) (panic_cpu : Option Nat)
    (cpu : Nat) (prio : NbconPrio) (allow_takeover : Bool) (m : ConMachine)
    (stop_seq : Nat) (is_extended : Bool)
    (getMsg : Nat → Option PrintkMessage) (obs : Nat → Option NbconState)
    (writes : Nat → Bool) (cb : ConCallbacks) (fuel : Nat) :
    Option AcqErr × ConMachine :=
  let ctxt : NbconContext :=
    { prio := prio, allow_unsafe_takeover := allow_takeover
      spinwait_max_us := 2000, cpu := cpu, seq := 0 }
  let acq := nbcon_context_try_acquire panic_other panic_cpu ctxt m.st m.nbcon_seq
  if acq.ok = false then (some AcqErr.eperm, { m with st := acq.st })
  else
    match nbcon_atomic_flush_loop is_extended getMsg obs writes cb stop_seq fuel
        { m with st := acq.st } acq.ctxt with
    | (err, m2, c2, own2) =>
        if own2 then (err, { m2 with st := nbcon_context_release c2 m2.st })
        else (err, m2)

/-! ## Helper lemmas -/

theorem can_proceed_snd_takeover (ctxt : NbconContext) (cur : NbconState) :
    (nbcon_context_can_proceed ctxt cur).2.unsafe_takeover = cur.unsafe_takeover := by
  unfold nbcon_context_can_proceed nbcon_context_release
  split_ifs <;> rfl

theorem release_takeover (ctxt : NbconContext) (cur : NbconState) :
    (nbcon_context_release ctxt cur).unsafe_takeover = cur.unsafe_takeover := by
  unfold nbcon_context_release
  split_ifs <;> rfl

theorem requested_snd_takeover (p : Bool) (ctxt : NbconContext) (cur : NbconState) :
    (nbcon_context_try_acquire_requested p ctxt cur).2.unsafe_takeover =
      cur.unsafe_takeover := by
  unfold nbcon_context_try_acquire_requested
  split_ifs <;> rfl

theorem update_unsafe_bit_snd_takeover (ctxt : NbconContext) (cur : NbconState)
    (b : Bool) :
    (nbcon_context_update_unsafe_bit ctxt cur b).2.unsafe_takeover =
      cur.unsafe_takeover := by
  unfold nbcon_context_update_unsafe_bit
  split
  · exact can_proceed_snd_takeover ctxt cur
  · split
    · rename_i s h
      have h1 := can_proceed_snd_takeover ctxt cur
      rw [h] at h1
      exact h1
    · exact can_proceed_snd_takeover ctxt { cur with unsafe_bit := b }

theorem direct_snd_takeover (p : Bool) (ctxt : NbconContext) (cur : NbconState) :
    (nbcon_context_try_acquire_direct p ctxt cur).2.unsafe_takeover =
      cur.unsafe_takeover := by
  unfold nbcon_context_try_acquire_direct
  split_ifs <;> rfl

theorem handover_snd_takeover (p : Bool) (ctxt : NbconContext) (cur : NbconState)
    (pc : Bool) :
    (nbcon_context_try_acquire_handover p ctxt cur pc).2.unsafe_takeover =
      cur.unsafe_takeover := by
  unfold nbcon_context_try_acquire_handover
  split_ifs <;> try rfl
  rcases hreq : nbcon_context_try_acquire_requested p ctxt
      { cur with req_prio := ctxt.prio } with ⟨e, s⟩
  have hr := requested_snd_takeover p ctxt { cur with req_prio := ctxt.prio }
  rw [hreq] at hr
  cases e
  · simpa [hreq] using hr
  · simp [hreq, nbcon_waiter_matches]

theorem hostile_takeover_mono (ctxt : NbconContext) (cur : NbconState)
    (h : cur.unsafe_takeover = true) :
    (nbcon_context_try_acquire_hostile ctxt cur).2.unsafe_takeover = true := by
  unfold nbcon_context_try_acquire_hostile
  split_ifs <;> simp [h]

theorem step_takeover_mono (p : Bool) (ctxt : NbconContext) (cur : NbconState)
    (h : cur.unsafe_takeover = true) :
    (nbcon_try_acquire_step p ctxt cur).2.unsafe_takeover = true := by
  unfold nbcon_try_acquire_step
  rcases h1 : nbcon_context_try_acquire_direct p ctxt cur with ⟨e1, s1⟩
  have hs1 : s1.unsafe_takeover = true := by
    have hd := direct_snd_takeover p ctxt cur
    rw [h1] at hd
    rw [hd]
    exact h
  rcases e1 with _ | e1
  · simp [h1, hs1]
  · rcases e1 <;> try simp [h1, hs1]
    rcases h2 : nbcon_context_try_acquire_handover p ctxt s1 true with ⟨e2, s2⟩
    have hs2 : s2.unsafe_takeover = true := by
      have hh := handover_snd_takeover p ctxt s1 true
      rw [h2] at hh
      rw [hh]
      exact hs1
    rcases e2 with _ | e2
    · simp [h1, h2, hs2]
    · rcases e2 <;> try simp [h1, h2, hs2]
      rcases h3 : nbcon_context_try_acquire_hostile ctxt s2 with ⟨e3, s3⟩
      have hs3 : s3.unsafe_takeover = true := by
        have hho := hostile_takeover_mono ctxt s2 hs2
        rw [h3] at hho
        exact hho
      rcases e3 with _ | e3 <;> simp [h1, h2, h3, hs3]

theorem try_acquire_takeover_mono (p : Bool) (panic_cpu : Option Nat)
    (ctxt : NbconContext) (cur : NbconState) (con_seq : Nat)
    (h : cur.unsafe_takeover = true) :
    (nbcon_context_try_acquire p panic_cpu ctxt cur con_seq).st.unsafe_takeover =
      true := by
  unfold nbcon_context_try_acquire
  rcases hs : nbcon_try_acquire_step p ctxt cur with ⟨e, s⟩
  have hm := step_takeover_mono p ctxt cur h
  rw [hs] at hm
  cases e <;> simpa [hs] using hm

theorem try_acquire_ok_fields (p : Bool) (pc : Option Nat) (ctxt : NbconContext)
    (cur : NbconState) (cs : Nat)
    (h : (nbcon_context_try_acquire p pc ctxt cur cs).ok = true) :
    (nbcon_context_try_acquire p pc ctxt cur cs).ctxt = { ctxt with seq := cs } := by
  unfold nbcon_context_try_acquire at h ⊢
  rcases hs : nbcon_try_acquire_step p ctxt cur with ⟨e, s⟩
  rw [hs] at h
  cases e
  · rfl
  · exact Bool.noConfusion h

/-! ## Claim theorems -/

/-- C1: `nbcon_context_try_acquire_direct` fails with -EPERM when another
CPU is in panic or when the context's priority is not strictly greater than
both the current owner's priority and the requested priority; fails with
-EBUSY when, those checks passing, the unsafe flag is set; and otherwise
succeeds, setting `prio` to the context's priority, `cpu` to the caller's
CPU, `req_prio` to NONE, and the unsafe bit to true only if
`unsafe_takeover` was already sticky-set. -/
theorem try_acquire_direct_characterization (p : Bool) (ctxt : NbconContext)
    (cur : NbconState) :
    nbcon_context_try_acquire_direct p ctxt cur =
      if p = true ∨ ¬(cur.prio.toNat < ctxt.prio.toNat ∧
          cur.req_prio.toNat < ctxt.prio.toNat) then
        (some AcqErr.eperm, cur)
      else if cur.unsafe_bit = true then (some AcqErr.ebusy, cur)
      else
        (none,
         { prio := ctxt.prio, req_prio := NbconPrio.none
           unsafe_bit := cur.unsafe_takeover
           unsafe_takeover := cur.unsafe_takeover, cpu := ctxt.cpu }) := by
  obtain ⟨cp, crq, cu, ct, cc⟩ := cur
  obtain ⟨xp, xa, xs, xc, xq⟩ := ctxt
  cases p <;> cases xp <;> cases cp <;> cases crq <;> cases cu <;> rfl

/-- C3: `nbcon_context_can_proceed` returns false leaving the state alone
when `(prio, cpu)` no longer matches the calling context; returns true when
it matches and no handover request is pending; returns true when it matches,
a request is pending, and the unsafe bit is set; and when it matches, a
request is pending, and the console is safe, it releases ownership (clearing
`prio`, keeping `unsafe |= unsafe_takeover`) and returns false. -/
theorem can_proceed_characterization (ctxt : NbconContext) (cur : NbconState) :
    nbcon_context_can_proceed ctxt cur =
      if ¬(cur.prio = ctxt.prio ∧ cur.cpu = ctxt.cpu) then (false, cur)
      else if cur.req_prio = NbconPrio.none then (true, cur)
      else if cur.unsafe_bit = true then (true, cur)
      else
        (false,
         { cur with
           prio := NbconPrio.none
           unsafe_bit := cur.unsafe_bit || cur.unsafe_takeover }) := by
  by_cases h1 : cur.prio = ctxt.prio
  · by_cases h2 : cur.cpu = ctxt.cpu
    · by_cases h3 : cur.req_prio = NbconPrio.none
      · simp [nbcon_context_can_proceed, nbcon_owner_matches, h1, h2, h3]
      · cases hu : cur.unsafe_bit
        · simp [nbcon_context_can_proceed, nbcon_owner_matches,
            nbcon_context_release, h1, h2, h3, hu]
        · simp [nbcon_context_can_proceed, nbcon_owner_matches, h1, h2, h3, hu]
    · simp [nbcon_context_can_proceed, nbcon_owner_matches, h1, h2]
  · simp [nbcon_context_can_proceed, nbcon_owner_matches, h1]

/-- C4: `nbcon_context_try_acquire_hostile` fails with -EPERM unless the
context has `allow_unsafe_takeover` set and priority PANIC; when legal it
seizes ownership unconditionally (no check of the unsafe bit), sets
`unsafe_takeover` to true if the console was unsafe at the moment of
seizure, and ORs the pre-existing unsafe / unsafe_takeover state forward. -/
theorem try_acquire_hostile_characterization (ctxt : NbconContext)
    (cur : NbconState) :
    nbcon_context_try_acquire_hostile ctxt cur =
      if ¬(ctxt.allow_unsafe_takeover = true ∧ ctxt.prio = NbconPrio.panic) then
        (some AcqErr.eperm, cur)
      else
        (none,
         { prio := NbconPrio.panic, req_prio := cur.req_prio
           unsafe_bit := cur.unsafe_bit || cur.unsafe_takeover
           unsafe_takeover := cur.unsafe_takeover || cur.unsafe_bit
           cpu := ctxt.cpu }) := by
  obtain ⟨xp, xa, xs, xc, xq⟩ := ctxt
  cases xa <;> cases xp <;> rfl

/-- C5: `nbcon_context_try_acquire_handover` returns -EBUSY leaving the
state untouched (no request posted, no spinning) whenever the current owner
is on the caller's own CPU, or `unsafe_takeover` is sticky-set, or the
caller's spin budget is 0, whatever the outcome of the posting CAS would
have been; and when those guards pass and the posting CAS of `req_prio`
fails because the state changed concurrently, it returns -EAGAIN with the
state untouched so the caller restarts with direct acquire. -/
theorem try_acquire_handover_guards_and_retry (p : Bool) (ctxt : NbconContext)
    (cur : NbconState) (pc : Bool) :
    ((cur.cpu = ctxt.cpu ∨ cur.unsafe_takeover = true ∨ ctxt.spinwait_max_us = 0) →
        nbcon_context_try_acquire_handover p ctxt cur pc = (some AcqErr.ebusy, cur))
  ∧ (cur.cpu ≠ ctxt.cpu → cur.unsafe_takeover = false → ctxt.spinwait_max_us ≠ 0 →
        nbcon_context_try_acquire_handover p ctxt cur false =
          (some AcqErr.eagain, cur)) := by
  constructor
  · intro h
    unfold nbcon_context_try_acquire_handover
    rcases h with h | h | h
    · simp [h]
    · simp [h]
    · by_cases h1 : cur.cpu = ctxt.cpu
      · simp [h1]
      · cases ht : cur.unsafe_takeover
        · simp [h1, ht, h]
        · simp [h1, ht]
  · intro h1 h2 h3
    unfold nbcon_context_try_acquire_handover
    simp [h1, h2, h3]

/-- C5 witness: both conjuncts applied at concrete inputs. -/
theorem try_acquire_handover_guards_and_retry_witness :
    (nbcon_context_try_acquire_handover false
        ⟨NbconPrio.emergency, false, 2000, 0, 0⟩
        ⟨NbconPrio.normal, NbconPrio.none, true, false, 0⟩ true =
      (some AcqErr.ebusy, ⟨NbconPrio.normal, NbconPrio.none, true, false, 0⟩))
  ∧ (nbcon_context_try_acquire_handover false
        ⟨NbconPrio.emergency, false, 2000, 1, 0⟩
        ⟨NbconPrio.normal, NbconPrio.none, true, false, 0⟩ false =
      (some AcqErr.eagain, ⟨NbconPrio.normal, NbconPrio.none, true, false, 0⟩)) :=
  ⟨(try_acquire_handover_guards_and_retry false
      ⟨NbconPrio.emergency, false, 2000, 0, 0⟩
      ⟨NbconPrio.normal, NbconPrio.none, true, false, 0⟩ true).1 (by decide),
   (try_acquire_handover_guards_and_retry false
      ⟨NbconPrio.emergency, false, 2000, 1, 0⟩
      ⟨NbconPrio.normal, NbconPrio.none, true, false, 0⟩ false).2
     (by decide) (by decide) (by decide)⟩

/-- C2: once `unsafe_takeover` is set, every protocol operation — direct,
requested, handover or hostile acquire, release, `can_proceed`, and the
enter/exit-unsafe update (either value of the bit), as well as the composed
`try_acquire` — leaves it set (each preserves or ORs it forward); only
console re-initialization (`nbcon_state_set` during init) writes the word
wholesale. -/
theorem unsafe_takeover_sticky (p pc b : Bool) (panic_cpu : Option Nat)
    (con_seq : Nat) (ctxt : NbconContext) (cur : NbconState) :
    ((nbcon_context_try_acquire_direct p ctxt cur).2.unsafe_takeover =
        cur.unsafe_takeover)
  ∧ ((nbcon_context_try_acquire_requested p ctxt cur).2.unsafe_takeover =
        cur.unsafe_takeover)
  ∧ ((nbcon_context_try_acquire_handover p ctxt cur pc).2.unsafe_takeover =
        cur.unsafe_takeover)
  ∧ (cur.unsafe_takeover = true →
        (nbcon_context_try_acquire_hostile ctxt cur).2.unsafe_takeover = true)
  ∧ ((nbcon_context_release ctxt cur).unsafe_takeover = cur.unsafe_takeover)
  ∧ ((nbcon_context_can_proceed ctxt cur).2.unsafe_takeover = cur.unsafe_takeover)
  ∧ ((nbcon_context_update_unsafe_bit ctxt cur b).2.unsafe_takeover =
        cur.unsafe_takeover)
  ∧ (cur.unsafe_takeover = true →
        (nbcon_context_try_acquire p panic_cpu ctxt cur con_seq).st.unsafe_takeover =
          true) := by
  exact ⟨direct_snd_takeover p ctxt cur, requested_snd_takeover p ctxt cur,
    handover_snd_takeover p ctxt cur pc,
    fun h => hostile_takeover_mono ctxt cur h,
    release_takeover ctxt cur, can_proceed_snd_takeover ctxt cur,
    update_unsafe_bit_snd_takeover ctxt cur b,
    fun h => try_acquire_takeover_mono p panic_cpu ctxt cur con_seq h⟩

/-- C2 witness: the sticky facts applied at a concrete sticky state. -/
theorem unsafe_takeover_sticky_witness :
    (nbcon_context_try_acquire_hostile ⟨NbconPrio.panic, true, 0, 1, 0⟩
        ⟨NbconPrio.normal, NbconPrio.none, true, true, 0⟩).2.unsafe_takeover = true
  ∧ (nbcon_context_try_acquire false none ⟨NbconPrio.panic, true, 0, 1, 0⟩
        ⟨NbconPrio.normal, NbconPrio.none, true, true, 0⟩ 0).st.unsafe_takeover =
      true :=
  ⟨(unsafe_takeover_sticky false false false none 0
      ⟨NbconPrio.panic, true, 0, 1, 0⟩
      ⟨NbconPrio.normal, NbconPrio.none, true, true, 0⟩).2.2.2.1 rfl,
   (unsafe_takeover_sticky false false false none 0
      ⟨NbconPrio.panic, true, 0, 1, 0⟩
      ⟨NbconPrio.normal, NbconPrio.none, true, true, 0⟩).2.2.2.2.2.2.2 rfl⟩

/-- C10: for every state, `nbcon_context_release` leaves `req_prio`
unchanged (a pending handover request survives the owner's release) and,
when the caller still matches `(prio, cpu)`, clears `prio`; the request is
consumed by `nbcon_context_try_acquire_requested`, which succeeds — clearing
`req_prio` — exactly when no other CPU is in panic, `req_prio` still carries
the waiter's priority, and `prio` is NONE. -/
theorem release_keeps_request_requested_consumes (p : Bool)
    (ctxt : NbconContext) (cur : NbconState) :
    ((nbcon_context_release ctxt cur).req_prio = cur.req_prio)
  ∧ (nbcon_owner_matches cur ctxt.cpu ctxt.prio = true →
        (nbcon_context_release ctxt cur).prio = NbconPrio.none)
  ∧ (nbcon_context_try_acquire_requested p ctxt cur =
      if p = true then (some AcqErr.eperm, cur)
      else if cur.req_prio ≠ ctxt.prio then (some AcqErr.eperm, cur)
      else if cur.prio ≠ NbconPrio.none then (some AcqErr.ebusy, cur)
      else
        (none,
         { prio := ctxt.prio, req_prio := NbconPrio.none
           unsafe_bit := cur.unsafe_takeover
           unsafe_takeover := cur.unsafe_takeover, cpu := ctxt.cpu })) := by
  refine ⟨?_, ?_, ?_⟩
  · unfold nbcon_context_release
    split_ifs <;> rfl
  · intro h
    unfold nbcon_context_release
    simp [h]
  · unfold nbcon_context_try_acquire_requested nbcon_waiter_matches
    by_cases hp : p = true
    · simp [hp]
    · by_cases hr : cur.req_prio = ctxt.prio
      · simp [hp, hr]
      · simp [hp, hr]

/-- C10 witness: release with a pending EMERGENCY request keeps the request
and clears `prio`; the waiter then acquires via requested. -/
theorem release_keeps_request_requested_consumes_witness :
    (nbcon_context_release ⟨NbconPrio.normal, false, 0, 0, 0⟩
        ⟨NbconPrio.normal, NbconPrio.emergency, false, false, 0⟩).req_prio =
      NbconPrio.emergency
  ∧ (nbcon_context_release ⟨NbconPrio.normal, false, 0, 0, 0⟩
        ⟨NbconPrio.normal, NbconPrio.emergency, false, false, 0⟩).prio =
      NbconPrio.none :=
  ⟨(release_keeps_request_requested_consumes false
      ⟨NbconPrio.normal, false, 0, 0, 0⟩
      ⟨NbconPrio.normal, NbconPrio.emergency, false, false, 0⟩).1,
   (release_keeps_request_requested_consumes false
      ⟨NbconPrio.normal, false, 0, 0, 0⟩
      ⟨NbconPrio.normal, NbconPrio.emergency, false, false, 0⟩).2.1 rfl⟩

/-! ## Emitter helper lemmas -/

theorem console_prepend_dropped_seq (pmsg : PrintkMessage) (c : Nat) :
    (console_prepend_dropped pmsg c).seq = pmsg.seq := rfl

theorem console_prepend_replay_seq (pmsg : PrintkMessage) :
    (console_prepend_replay pmsg).seq = pmsg.seq := rfl

theorem console_prepend_replay_replayed (pmsg : PrintkMessage) :
    (console_prepend_replay pmsg).replayed = true := rfl

theorem console_prepend_dropped_replayed (pmsg : PrintkMessage) (c : Nat) :
    (console_prepend_dropped pmsg c).replayed = pmsg.replayed := rfl

theorem emit_update_con_facts (ctxt : NbconContext) (m : ConMachine)
    (pmsg : PrintkMessage) (cd d : Nat) :
    ((nbcon_emit_update_con ctxt m pmsg cd d).msg = some pmsg)
  ∧ ((nbcon_emit_update_con ctxt m pmsg cd d).m.nbcon_prev_seq = m.nbcon_prev_seq)
  ∧ ((nbcon_emit_update_con ctxt m pmsg cd d).own = true →
      (nbcon_emit_update_con ctxt m pmsg cd d).m.nbcon_seq =
        (nbcon_seq_try_update m.nbcon_seq ctxt.seq (pmsg.seq + 1)).1)
  ∧ (ctxt.seq ≤ pmsg.seq →
      m.nbcon_seq ≤ (nbcon_emit_update_con ctxt m pmsg cd d).m.nbcon_seq) := by
  unfold nbcon_emit_update_con
  rcases hE : nbcon_context_update_unsafe_bit ctxt m.st true with ⟨ok1, s1⟩
  cases ok1
  · simp
  · rcases hX : nbcon_context_update_unsafe_bit ctxt s1 false with ⟨ok2, s2⟩
    simp only [hE, hX]
    refine ⟨?_, ?_, ?_, ?_⟩
    · simp
    · simp
    · simp
    · intro hle
      unfold nbcon_seq_try_update
      split_ifs <;> simp <;> omega

theorem emit_finish_facts (ctxt : NbconContext) (m : ConMachine)
    (pmsg : PrintkMessage) (cd d : Nat) (ua : Bool) (cb : ConCallbacks)
    (wk : Bool) :
    ((nbcon_emit_finish ctxt m pmsg cd d ua cb wk).msg = some pmsg)
  ∧ ((nbcon_emit_finish ctxt m pmsg cd d ua cb wk).m.nbcon_prev_seq =
      m.nbcon_prev_seq)
  ∧ ((nbcon_emit_finish ctxt m pmsg cd d ua cb wk).own = true →
      (nbcon_emit_finish ctxt m pmsg cd d ua cb wk).m.nbcon_seq =
        (nbcon_seq_try_update m.nbcon_seq ctxt.seq (pmsg.seq + 1)).1)
  ∧ (ctxt.seq ≤ pmsg.seq →
      m.nbcon_seq ≤ (nbcon_emit_finish ctxt m pmsg cd d ua cb wk).m.nbcon_seq) := by
  unfold nbcon_emit_finish
  rcases hE : nbcon_context_update_unsafe_bit ctxt m.st false with ⟨ok1, s1⟩
  cases ok1
  · simp
  · simp only [hE]
    by_cases h0 : pmsg.outbuf_len = 0
    · simpa [h0] using emit_update_con_facts ctxt { m with st := s1 } pmsg cd d
    · by_cases hcb : (ua && cb.has_write_atomic) || (!ua && cb.has_write_thread)
      · cases wk
        · simp [h0, hcb]
        · simpa [h0, hcb] using emit_update_con_facts ctxt { m with st := s1 } pmsg cd 0
      · simp [h0, hcb]

theorem emit_none_frame (ctxt : NbconContext) (m : ConMachine)
    (is_extended : Bool) (getMsg : Nat → Option PrintkMessage)
    (obs : Option NbconState) (ua : Bool) (cb : ConCallbacks) (wk : Bool)
    (hg : getMsg ctxt.seq = none) :
    (nbcon_emit_next_record ctxt m is_extended getMsg obs ua cb wk).m.nbcon_seq =
      m.nbcon_seq := by
  unfold nbcon_emit_next_record
  rcases hE : nbcon_context_update_unsafe_bit ctxt m.st true with ⟨ok1, s1⟩
  cases ok1
  · simp
  · rcases hX : nbcon_context_update_unsafe_bit ctxt s1 false with ⟨ok2, s2⟩
    simp [hg, hX]

theorem emit_some_facts (ctxt : NbconContext) (m : ConMachine)
    (is_extended : Bool) (getMsg : Nat → Option PrintkMessage)
    (obs : Option NbconState) (ua : Bool) (cb : ConCallbacks) (wk : Bool)
    (pm : PrintkMessage) (hg : getMsg ctxt.seq = some pm) :
    ((nbcon_emit_next_record ctxt m is_extended getMsg obs ua cb wk).own = true →
      (nbcon_emit_next_record ctxt m is_extended getMsg obs ua cb wk).m.nbcon_seq =
        (nbcon_seq_try_update m.nbcon_seq ctxt.seq (pm.seq + 1)).1)
  ∧ (ctxt.seq ≤ pm.seq →
      m.nbcon_seq ≤
        (nbcon_emit_next_record ctxt m is_extended getMsg obs ua cb wk).m.nbcon_seq) := by
  unfold nbcon_emit_next_record
  rcases hE : nbcon_context_update_unsafe_bit ctxt m.st true with ⟨ok1, s1⟩
  cases ok1
  · simp
  · simp only [hE, hg]
    set pmsg1 :=
      if (m.dropped + pm.dropped) != 0 && !is_extended then
        console_prepend_dropped pm (m.dropped + pm.dropped)
      else pm with hpmsg1
    have hseq1 : pmsg1.seq = pm.seq := by
      rw [hpmsg1]
      split_ifs <;> rfl
    by_cases hrep : m.nbcon_prev_seq = pmsg1.seq
    · rw [if_pos hrep]
      have hf := emit_finish_facts ctxt { m with st := s1 }
        (console_prepend_replay pmsg1) m.dropped (m.dropped + pm.dropped) ua cb wk
      simp only [console_prepend_replay_seq, hseq1] at hf
      exact ⟨hf.2.2.1, hf.2.2.2⟩
    · rw [if_neg hrep]
      rcases hP : nbcon_context_can_proceed ctxt (obs.getD s1) with ⟨okp, sp⟩
      cases okp
      · simp [hP]
      · simp only [hP, hseq1]
        have hf := emit_finish_facts ctxt
          { m with st := obs.getD s1, nbcon_prev_seq := pmsg1.seq }
          pmsg1 m.dropped (m.dropped + pm.dropped) ua cb wk
        simp only [hseq1] at hf
        exact ⟨hf.2.2.1, hf.2.2.2⟩

/-- C6: `con->nbcon_seq` is non-decreasing across the protocol operations
(`nbcon_seq_force` is the one explicit reset outside this, and the
acquire/release/can-proceed operations do not touch the sequence word at
all). `nbcon_seq_try_update` — the only writer, called by the emitter after
a fully successful write — either moves the stored value from the owner's
expected value `ctxt->seq` to the (larger) new value, or on CAS failure
leaves the stored value unchanged; in both cases the owner's private copy is
resynchronized to the stored result. Consequently a whole
`nbcon_emit_next_record` call never decreases `nbcon_seq`, given the
ring-buffer contract that a fetched record lies at or after the queried
sequence. -/
theorem nbcon_seq_monotone (cs xs ns : Nat) (ctxt : NbconContext)
    (m : ConMachine) (is_extended : Bool) (getMsg : Nat → Option PrintkMessage)
    (obs : Option NbconState) (ua : Bool) (cb : ConCallbacks) (wk : Bool) :
    (xs ≤ ns →
      cs ≤ (nbcon_seq_try_update cs xs ns).1
      ∧ ((nbcon_seq_try_update cs xs ns).1 = cs ∨
          (cs = xs ∧ (nbcon_seq_try_update cs xs ns).1 = ns))
      ∧ (nbcon_seq_try_update cs xs ns).2 = (nbcon_seq_try_update cs xs ns).1)
  ∧ ((∀ q pmq, getMsg q = some pmq → q ≤ pmq.seq) →
      m.nbcon_seq ≤
        (nbcon_emit_next_record ctxt m is_extended getMsg obs ua cb
          wk).m.nbcon_seq) := by
  constructor
  · intro h
    unfold nbcon_seq_try_update
    split_ifs with hc
    · exact ⟨show cs ≤ ns by omega, Or.inr ⟨hc, rfl⟩, rfl⟩
    · exact ⟨le_refl _, Or.inl rfl, rfl⟩
  · intro h
    rcases hg : getMsg ctxt.seq with _ | pm
    · rw [emit_none_frame ctxt m is_extended getMsg obs ua cb wk hg]
    · exact (emit_some_facts ctxt m is_extended getMsg obs ua cb wk pm hg).2
        (h ctxt.seq pm hg)

/-- C6 witness: the CAS moves 5 to 8 when expected matches, and a concrete
successful emission does not decrease the sequence. -/
theorem nbcon_seq_monotone_witness :
    (5 ≤ (nbcon_seq_try_update 5 5 8).1
      ∧ ((nbcon_seq_try_update 5 5 8).1 = 5 ∨
          (5 = 5 ∧ (nbcon_seq_try_update 5 5 8).1 = 8))
      ∧ (nbcon_seq_try_update 5 5 8).2 = (nbcon_seq_try_update 5 5 8).1)
  ∧ (5 ≤ (nbcon_emit_next_record ⟨NbconPrio.normal, false, 0, 0, 5⟩
        ⟨⟨NbconPrio.normal, NbconPrio.none, false, false, 0⟩, 5, 0, 0⟩ false
        (fun q => if q ≤ 7 then some ⟨7, 0, 3, false, false⟩ else none) none true
        ⟨true, true⟩ true).m.nbcon_seq) :=
  ⟨(nbcon_seq_monotone 5 5 8 ⟨NbconPrio.normal, false, 0, 0, 5⟩
      ⟨⟨NbconPrio.normal, NbconPrio.none, false, false, 0⟩, 5, 0, 0⟩ false
      (fun q => if q ≤ 7 then some ⟨7, 0, 3, false, false⟩ else none) none true
      ⟨true, true⟩ true).1 (by decide),
   (nbcon_seq_monotone 5 5 8 ⟨NbconPrio.normal, false, 0, 0, 5⟩
      ⟨⟨NbconPrio.normal, NbconPrio.none, false, false, 0⟩, 5, 0, 0⟩ false
      (fun q => if q ≤ 7 then some ⟨7, 0, 3, false, false⟩ else none) none true
      ⟨true, true⟩ true).2 (by
        intro q pmq hq
        by_cases h7 : q ≤ 7
        · rw [if_pos h7] at hq
          injection hq with hq2
          rw [← hq2]
          exact h7
        · rw [if_neg h7] at hq
          exact absurd hq (by simp))⟩

/-- C7: in `nbcon_emit_next_record`, once the unsafe region is entered and a
record has been fetched: if `nbcon_prev_seq` equals the fetched record's
sequence, a replay notice is prepended to the message (and `nbcon_prev_seq`
is not re-written); otherwise the emitter re-checks ownership at the fresh
state read, bails out returning false (leaving `nbcon_prev_seq` alone) if
ownership was lost, and else CASes `nbcon_prev_seq` to the record's sequence
and emits the message without a replay notice — so a retry of a sequence
whose previous attempt never reached the `nbcon_prev_seq` assignment (the
same owner's benign retry) gets no replay notice. -/
theorem emit_replay_marking (ctxt : NbconContext) (m : ConMachine)
    (is_extended : Bool) (getMsg : Nat → Option PrintkMessage)
    (obs : Option NbconState) (ua : Bool) (cb : ConCallbacks) (wk : Bool)
    (pm : PrintkMessage)
    (hE : (nbcon_context_update_unsafe_bit ctxt m.st true).1 = true)
    (hg : getMsg ctxt.seq = some pm) :
    (m.nbcon_prev_seq = pm.seq →
      (∃ q, (nbcon_emit_next_record ctxt m is_extended getMsg obs ua cb wk).msg =
          some q ∧ q.replayed = true ∧ q.seq = pm.seq)
      ∧ (nbcon_emit_next_record ctxt m is_extended getMsg obs ua cb
          wk).m.nbcon_prev_seq = m.nbcon_prev_seq)
  ∧ (m.nbcon_prev_seq ≠ pm.seq →
      (nbcon_context_can_proceed ctxt
        (obs.getD (nbcon_context_update_unsafe_bit ctxt m.st true).2)).1 = false →
      (nbcon_emit_next_record ctxt m is_extended getMsg obs ua cb wk).own = false
      ∧ (nbcon_emit_next_record ctxt m is_extended getMsg obs ua cb
          wk).m.nbcon_prev_seq = m.nbcon_prev_seq)
  ∧ (m.nbcon_prev_seq ≠ pm.seq →
      (nbcon_context_can_proceed ctxt
        (obs.getD (nbcon_context_update_unsafe_bit ctxt m.st true).2)).1 = true →
      (nbcon_emit_next_record ctxt m is_extended getMsg obs ua cb
          wk).m.nbcon_prev_seq = pm.seq
      ∧ (∃ q, (nbcon_emit_next_record ctxt m is_extended getMsg obs ua cb wk).msg =
          some q ∧ q.replayed = pm.replayed ∧ q.seq = pm.seq)) := by
  unfold nbcon_emit_next_record
  rcases hEE : nbcon_context_update_unsafe_bit ctxt m.st true with ⟨ok1, s1⟩
  rw [hEE] at hE
  simp only at hE
  cases ok1
  · exact Bool.noConfusion hE
  · simp only [hg]
    set pmsg1 :=
      if (m.dropped + pm.dropped) != 0 && !is_extended then
        console_prepend_dropped pm (m.dropped + pm.dropped)
      else pm with hpmsg1
    have hseq1 : pmsg1.seq = pm.seq := by
      rw [hpmsg1]
      split_ifs <;> rfl
    have hrep1 : pmsg1.replayed = pm.replayed := by
      rw [hpmsg1]
      split_ifs <;> rfl
    refine ⟨?_, ?_, ?_⟩
    · intro hprev
      rw [if_pos (hseq1 ▸ hprev)]
      have hf := emit_finish_facts ctxt { m with st := s1 }
        (console_prepend_replay pmsg1) m.dropped (m.dropped + pm.dropped) ua cb wk
      refine ⟨⟨console_prepend_replay pmsg1, hf.1,
        console_prepend_replay_replayed pmsg1,
        (console_prepend_replay_seq pmsg1).trans hseq1⟩, ?_⟩
      simpa using hf.2.1
    · intro hprev hcp
      rw [if_neg (by rw [hseq1]; exact hprev)]
      rcases hP : nbcon_context_can_proceed ctxt (obs.getD s1) with ⟨okp, sp⟩
      rw [hP] at hcp
      simp only at hcp
      cases okp
      · simp [hP]
      · exact Bool.noConfusion hcp
    · intro hprev hcp
      rw [if_neg (by rw [hseq1]; exact hprev)]
      rcases hP : nbcon_context_can_proceed ctxt (obs.getD s1) with ⟨okp, sp⟩
      rw [hP] at hcp
      simp only at hcp
      cases okp
      · exact Bool.noConfusion hcp
      · simp only [hP]
        have hf := emit_finish_facts ctxt
          { m with st := obs.getD s1, nbcon_prev_seq := pmsg1.seq }
          pmsg1 m.dropped (m.dropped + pm.dropped) ua cb wk
        refine ⟨?_, pmsg1, hf.1, hrep1, hseq1⟩
        rw [hf.2.1]
        simpa using hseq1

/-- C7 witness: a new owner re-emitting sequence 7 whose previous attempt
was abandoned (`nbcon_prev_seq = 7`) gets a replay notice; an owner whose
previous attempt at 7 never assigned `nbcon_prev_seq` re-emits without
one and records the assignment. -/
theorem emit_replay_marking_witness :
    ((∃ q, (nbcon_emit_next_record ⟨NbconPrio.normal, false, 0, 0, 7⟩
        ⟨⟨NbconPrio.normal, NbconPrio.none, false, false, 0⟩, 7, 7, 0⟩ false
        (fun _ => some ⟨7, 0, 3, false, false⟩) none true ⟨true, true⟩ true).msg =
          some q ∧ q.replayed = true ∧ q.seq = 7)
      ∧ (nbcon_emit_next_record ⟨NbconPrio.normal, false, 0, 0, 7⟩
        ⟨⟨NbconPrio.normal, NbconPrio.none, false, false, 0⟩, 7, 7, 0⟩ false
        (fun _ => some ⟨7, 0, 3, false, false⟩) none true ⟨true, true⟩
          true).m.nbcon_prev_seq = 7)
  ∧ ((nbcon_emit_next_record ⟨NbconPrio.normal, false, 0, 0, 7⟩
        ⟨⟨NbconPrio.normal, NbconPrio.none, false, false, 0⟩, 7, 5, 0⟩ false
        (fun _ => some ⟨7, 0, 3, false, false⟩) none true ⟨true, true⟩
          true).m.nbcon_prev_seq = 7
      ∧ (∃ q, (nbcon_emit_next_record ⟨NbconPrio.normal, false, 0, 0, 7⟩
        ⟨⟨NbconPrio.normal, NbconPrio.none, false, false, 0⟩, 7, 5, 0⟩ false
        (fun _ => some ⟨7, 0, 3, false, false⟩) none true ⟨true, true⟩ true).msg =
          some q ∧ q.replayed = false ∧ q.seq = 7)) :=
  ⟨(emit_replay_marking ⟨NbconPrio.normal, false, 0, 0, 7⟩
      ⟨⟨NbconPrio.normal, NbconPrio.none, false, false, 0⟩, 7, 7, 0⟩ false
      (fun _ => some ⟨7, 0, 3, false, false⟩) none true ⟨true, true⟩ true
      ⟨7, 0, 3, false, false⟩ (by decide) rfl).1 rfl,
   (emit_replay_marking ⟨NbconPrio.normal, false, 0, 0, 7⟩
      ⟨⟨NbconPrio.normal, NbconPrio.none, false, false, 0⟩, 7, 5, 0⟩ false
      (fun _ => some ⟨7, 0, 3, false, false⟩) none true ⟨true, true⟩ true
      ⟨7, 0, 3, false, false⟩ (by decide) rfl).2.2 (by decide) (by decide)⟩

/-- C9 counterexample: a context acquired at sequence 5, but the record at 5
was reclaimed and the fetch returned the record at sequence 7; the emission
completes without ownership loss, yet `nbcon_seq` ends at 8 = pmsg.seq + 1,
not at ctxt.seq + 1 = 6 as the claim states for every such attempt. -/
theorem emit_seq_counterexample :
    ((nbcon_emit_next_record ⟨NbconPrio.normal, false, 0, 0, 5⟩
        ⟨⟨NbconPrio.normal, NbconPrio.none, false, false, 0⟩, 5, 0, 0⟩ false
        (fun _ => some ⟨7, 0, 3, false, false⟩) none true ⟨true, true⟩
          true).own = true)
  ∧ ((nbcon_emit_next_record ⟨NbconPrio.normal, false, 0, 0, 5⟩
        ⟨⟨NbconPrio.normal, NbconPrio.none, false, false, 0⟩, 5, 0, 0⟩ false
        (fun _ => some ⟨7, 0, 3, false, false⟩) none true ⟨true, true⟩
          true).m.nbcon_seq = 8)
  ∧ ((nbcon_emit_next_record ⟨NbconPrio.normal, false, 0, 0, 5⟩
        ⟨⟨NbconPrio.normal, NbconPrio.none, false, false, 0⟩, 5, 0, 0⟩ false
        (fun _ => some ⟨7, 0, 3, false, false⟩) none true ⟨true, true⟩
          true).m.nbcon_seq ≠ 5 + 1) := by
  decide

/-- C9 (amended): after an emission attempt that fetched a record and
completed without ownership loss, `nbcon_seq` has been advanced via the
CAS-or-resync pattern to `pmsg.seq + 1` — the sequence of the record
actually emitted — which equals `ctxt.seq + 1` exactly when the record at
the context's assigned sequence was still available. -/
theorem emit_advances_to_fetched_seq (ctxt : NbconContext) (m : ConMachine)
    (is_extended : Bool) (getMsg : Nat → Option PrintkMessage)
    (obs : Option NbconState) (ua : Bool) (cb : ConCallbacks) (wk : Bool)
    (pm : PrintkMessage) (hg : getMsg ctxt.seq = some pm)
    (ho : (nbcon_emit_next_record ctxt m is_extended getMsg obs ua cb wk).own =
      true) :
    (nbcon_emit_next_record ctxt m is_extended getMsg obs ua cb wk).m.nbcon_seq =
      (nbcon_seq_try_update m.nbcon_seq ctxt.seq (pm.seq + 1)).1
  ∧ (m.nbcon_seq = ctxt.seq →
      (nbcon_emit_next_record ctxt m is_extended getMsg obs ua cb
        wk).m.nbcon_seq = pm.seq + 1) := by
  have h := (emit_some_facts ctxt m is_extended getMsg obs ua cb wk pm hg).1 ho
  refine ⟨h, fun hc => ?_⟩
  rw [h]
  unfold nbcon_seq_try_update
  rw [if_pos hc]

/-- C9 amended-claim witness: in the ordinary case the fetched record is the
assigned one and the sequence advances to ctxt.seq + 1 = 6. -/
theorem emit_advances_to_fetched_seq_witness :
    (nbcon_emit_next_record ⟨NbconPrio.normal, false, 0, 0, 5⟩
        ⟨⟨NbconPrio.normal, NbconPrio.none, false, false, 0⟩, 5, 0, 0⟩ false
        (fun _ => some ⟨5, 0, 3, false, false⟩) none true ⟨true, true⟩
          true).m.nbcon_seq = 5 + 1 :=
  (emit_advances_to_fetched_seq ⟨NbconPrio.normal, false, 0, 0, 5⟩
      ⟨⟨NbconPrio.normal, NbconPrio.none, false, false, 0⟩, 5, 0, 0⟩ false
      (fun _ => some ⟨5, 0, 3, false, false⟩) none true ⟨true, true⟩ true
      ⟨5, 0, 3, false, false⟩ rfl (by decide)).2 rfl

/-- C8 counterexample: another owner (NORMAL priority on CPU 0) holds the
console, safely, while a NORMAL-priority caller on CPU 1 flushes; the
acquisition fails because of that owner, and
`__nbcon_atomic_flush_pending_con` returns -EPERM (Permission), not -EAGAIN
(Retry) as the claim states for an acquisition blocked by another owner. -/
theorem flush_owner_held_counterexample :
    ((atomic_flush_pending_con false none 1 NbconPrio.normal false
        ⟨⟨NbconPrio.normal, NbconPrio.none, false, false, 0⟩, 5, 0, 0⟩ 6 false
        (fun _ => none) (fun _ => none) (fun _ => true) ⟨true, true⟩ 4).1 =
      some AcqErr.eperm)
  ∧ ((atomic_flush_pending_con false none 1 NbconPrio.normal false
        ⟨⟨NbconPrio.normal, NbconPrio.none, false, false, 0⟩, 5, 0, 0⟩ 6 false
        (fun _ => none) (fun _ => none) (fun _ => true) ⟨true, true⟩ 4).1 ≠
      some AcqErr.eagain) := by
  decide

/-- C8 (amended): `__nbcon_atomic_flush_pending_con` returns Permission
(-EPERM) whenever acquisition fails — both when another owner holds the
console and when priority/panic rules forbid acquiring; Retry (-EAGAIN) when
ownership is lost to another context while printing (in which case the
context no longer owns the console and does not release); Incomplete
(-ENOENT, not an error to retry) when no record is available while
`nbcon_seq` is still behind `stop_seq`; and on that path the console is
released on exit. -/
theorem flush_pending_con_errors (p : Bool) (pc : Option Nat) (cpu : Nat)
    (prio : NbconPrio) (allow_t : Bool) (m : ConMachine) (stop_seq : Nat)
    (ext : Bool) (getMsg : Nat → Option PrintkMessage)
    (obs : Nat → Option NbconState) (writes : Nat → Bool) (cb : ConCallbacks)
    (f : Nat) :
    ((nbcon_context_try_acquire p pc ⟨prio, allow_t, 2000, cpu, 0⟩ m.st
        m.nbcon_seq).ok = false →
      (atomic_flush_pending_con p pc cpu prio allow_t m stop_seq ext getMsg obs
        writes cb (f + 1)).1 = some AcqErr.eperm)
  ∧ ((nbcon_context_try_acquire p pc ⟨prio, allow_t, 2000, cpu, 0⟩ m.st
        m.nbcon_seq).ok = true →
      m.nbcon_seq < stop_seq →
      (nbcon_emit_next_record
        (nbcon_context_try_acquire p pc ⟨prio, allow_t, 2000, cpu, 0⟩ m.st
          m.nbcon_seq).ctxt
        { m with st := (nbcon_context_try_acquire p pc
            ⟨prio, allow_t, 2000, cpu, 0⟩ m.st m.nbcon_seq).st }
        ext getMsg (obs f) true cb (writes f)).own = false →
      (atomic_flush_pending_con p pc cpu prio allow_t m stop_seq ext getMsg obs
        writes cb (f + 1)).1 = some AcqErr.eagain)
  ∧ ((nbcon_context_try_acquire p pc ⟨prio, allow_t, 2000, cpu, 0⟩ m.st
        m.nbcon_seq).ok = true →
      m.nbcon_seq < stop_seq →
      (nbcon_emit_next_record
        (nbcon_context_try_acquire p pc ⟨prio, allow_t, 2000, cpu, 0⟩ m.st
          m.nbcon_seq).ctxt
        { m with st := (nbcon_context_try_acquire p pc
            ⟨prio, allow_t, 2000, cpu, 0⟩ m.st m.nbcon_seq).st }
        ext getMsg (obs f) true cb (writes f)).own = true →
      (nbcon_emit_next_record
        (nbcon_context_try_acquire p pc ⟨prio, allow_t, 2000, cpu, 0⟩ m.st
          m.nbcon_seq).ctxt
        { m with st := (nbcon_context_try_acquire p pc
            ⟨prio, allow_t, 2000, cpu, 0⟩ m.st m.nbcon_seq).st }
        ext getMsg (obs f) true cb (writes f)).backlog = false →
      (nbcon_emit_next_record
        (nbcon_context_try_acquire p pc ⟨prio, allow_t, 2000, cpu, 0⟩ m.st
          m.nbcon_seq).ctxt
        { m with st := (nbcon_context_try_acquire p pc
            ⟨prio, allow_t, 2000, cpu, 0⟩ m.st m.nbcon_seq).st }
        ext getMsg (obs f) true cb (writes f)).m.nbcon_seq < stop_seq →
      (atomic_flush_pending_con p pc cpu prio allow_t m stop_seq ext getMsg obs
        writes cb (f + 1)).1 = some AcqErr.enoent
      ∧ (atomic_flush_pending_con p pc cpu prio allow_t m stop_seq ext getMsg
          obs writes cb (f + 1)).2.st =
        nbcon_context_release
          (nbcon_context_try_acquire p pc ⟨prio, allow_t, 2000, cpu, 0⟩ m.st
            m.nbcon_seq).ctxt
          (nbcon_emit_next_record
            (nbcon_context_try_acquire p pc ⟨prio, allow_t, 2000, cpu, 0⟩ m.st
              m.nbcon_seq).ctxt
            { m with st := (nbcon_context_try_acquire p pc
                ⟨prio, allow_t, 2000, cpu, 0⟩ m.st m.nbcon_seq).st }
            ext getMsg (obs f) true cb (writes f)).m.st) := by
  refine ⟨?_, ?_, ?_⟩
  · intro h
    simp only [atomic_flush_pending_con]
    rw [if_pos h]
  · intro h hlt hemit
    simp only [atomic_flush_pending_con]
    rw [if_neg (by simp [h])]
    simp only [nbcon_atomic_flush_loop]
    rw [if_pos (show ({ m with st := (nbcon_context_try_acquire p pc
        ⟨prio, allow_t, 2000, cpu, 0⟩ m.st m.nbcon_seq).st } : ConMachine).nbcon_seq <
          stop_seq from hlt)]
    rw [if_pos hemit]
    rfl
  · intro h hlt hown hbg hlt2
    simp only [atomic_flush_pending_con]
    rw [if_neg (by simp [h])]
    simp only [nbcon_atomic_flush_loop]
    rw [if_pos (show ({ m with st := (nbcon_context_try_acquire p pc
        ⟨prio, allow_t, 2000, cpu, 0⟩ m.st m.nbcon_seq).st } : ConMachine).nbcon_seq <
          stop_seq from hlt)]
    constructor
    · simp [hown, hbg, hlt2]
    · simp [hown, hbg, hlt2, nbcon_context_release, nbcon_owner_matches]

/-- C8 amended-claim witness: the Permission case at a held console and the
Incomplete-and-release case at a console whose next record is not yet
available. -/
theorem flush_pending_con_errors_witness :
    ((atomic_flush_pending_con false none 1 NbconPrio.normal false
        ⟨⟨NbconPrio.normal, NbconPrio.none, false, false, 0⟩, 5, 0, 0⟩ 6 false
        (fun _ => none) (fun _ => none) (fun _ => true) ⟨true, true⟩ 4).1 =
      some AcqErr.eperm)
  ∧ ((atomic_flush_pending_con false none 0 NbconPrio.normal false
        ⟨⟨NbconPrio.none, NbconPrio.none, false, false, 0⟩, 5, 0, 0⟩ 6 false
        (fun _ => none) (fun _ => none) (fun _ => true) ⟨true, true⟩ 4).1 =
      some AcqErr.enoent) :=
  ⟨(flush_pending_con_errors false none 1 NbconPrio.normal false
      ⟨⟨NbconPrio.normal, NbconPrio.none, false, false, 0⟩, 5, 0, 0⟩ 6 false
      (fun _ => none) (fun _ => none) (fun _ => true) ⟨true, true⟩ 3).1
      (by decide),
   ((flush_pending_con_errors false none 0 NbconPrio.normal false
      ⟨⟨NbconPrio.none, NbconPrio.none, false, false, 0⟩, 5, 0, 0⟩ 6 false
      (fun _ => none) (fun _ => none) (fun _ => true) ⟨true, true⟩ 3).2.2
      (by decide) (by decide) (by decide) (by decide) (by decide)).1⟩

end Nbcon
